import Mathlib

/-!
Shallow embedding of the x-math library (Rect, Box, Size, Coordinate) and
verification of its specification.

JavaScript numbers are modelled as exact rationals for the integer/affine
rectangle arithmetic (src/rect.js, src/size.js) and as reals where square
roots occur (Box.distance, Coordinate.magnitude).  For the one claim about
IEEE special values (Coordinate.normalize on the zero vector) we use an
extended number type with infinities and NaN.  Object allocation and
mutation are modelled explicitly where a claim is about them: the mutating
instance method Rect.prototype.intersection is embedded as a function
returning the (returned boolean, final state of `this`) pair, and
Rect.difference additionally gets a heap-instrumented embedding for the
frame/freshness claim.
-/


/-- Rect from src/rect.js: left, top, width, height. -/
structure Rect where
  left : ℚ
  top : ℚ
  width : ℚ
  height : ℚ
deriving DecidableEq, Repr

/-- Rect.prototype.clone: a new rectangle with the same four fields. -/
def Rect.clone (r : Rect) : Rect :=
  ⟨r.left, r.top, r.width, r.height⟩

/-- Rect.prototype.area: width * height. -/
def Rect.area (r : Rect) : ℚ :=
  r.width * r.height

/-- Rect.prototype.intersection (mutating): returns the boolean result of the
JS call together with the final state of `this` (mutated to the intersection
on success, untouched on failure). -/
def Rect.intersectionInst (self rect : Rect) : Bool × Rect :=
  let x0 := max self.left rect.left
  let x1 := min (self.left + self.width) (rect.left + rect.width)
  if x0 ≤ x1 then
    let y0 := max self.top rect.top
    let y1 := min (self.top + self.height) (rect.top + rect.height)
    if y0 ≤ y1 then
      (true, ⟨x0, y0, x1 - x0, y1 - y0⟩)
    else
      (false, self)
  else
    (false, self)

/-- Static Rect.intersection: a new rectangle, or null (modelled as none). -/
def Rect.intersection (a b : Rect) : Option Rect :=
  let x0 := max a.left b.left
  let x1 := min (a.left + a.width) (b.left + b.width)
  if x0 ≤ x1 then
    let y0 := max a.top b.top
    let y1 := min (a.top + a.height) (b.top + b.height)
    if y0 ≤ y1 then
      some ⟨x0, y0, x1 - x0, y1 - y0⟩
    else
      none
  else
    none

/-- Static Rect.intersects: the edge-inclusive boolean overlap test. -/
def Rect.intersects (a b : Rect) : Bool :=
  decide (a.left ≤ b.left + b.width) && decide (b.left ≤ a.left + a.width) &&
  decide (a.top ≤ b.top + b.height) && decide (b.top ≤ a.top + a.height)

/-- Static Rect.difference.  The JS pushes onto `result` while threading the
mutable locals `top` and `height`; the pushes are rendered as list appends and
the two locals as let-rebindings in statement order.  The guard
`!intersection || !intersection.height || !intersection.width` tests null /
falsy (zero) height / falsy width. -/
def Rect.difference (a b : Rect) : List Rect :=
  match Rect.intersection a b with
  | none => [a.clone]
  | some intersection =>
    if intersection.height = 0 ∨ intersection.width = 0 then
      [a.clone]
    else
      let top := a.top
      let height := a.height
      let ar := a.left + a.width
      let ab := a.top + a.height
      let br := b.left + b.width
      let bb := b.top + b.height
      -- Subtract off any area on top where A extends past B
      let r1 : List Rect := if b.top > a.top then [⟨a.left, a.top, a.width, b.top - a.top⟩] else []
      let top := if b.top > a.top then b.top else top
      let height := if b.top > a.top then height - (b.top - a.top) else height
      -- Subtract off any area on bottom where A extends past B
      let r2 : List Rect := if bb < ab then [⟨a.left, bb, a.width, ab - bb⟩] else []
      let height := if bb < ab then bb - top else height
      -- Subtract any area on left where A extends past B
      let r3 : List Rect := if b.left > a.left then [⟨a.left, top, b.left - a.left, height⟩] else []
      -- Subtract any area on right where A extends past B
      let r4 : List Rect := if br < ar then [⟨br, top, ar - br, height⟩] else []
      r1 ++ r2 ++ r3 ++ r4

/-- Rect.prototype.difference delegates to the static form. -/
def Rect.differenceInst (self rect : Rect) : List Rect :=
  Rect.difference self rect

/-- Box from the unnamed source file: top, right, bottom, left. -/
structure Rbox where
  top : ℚ
  right : ℚ
  bottom : ℚ
  left : ℚ
deriving DecidableEq, Repr

/-- Rect.prototype.toBox. -/
def Rect.toBox (r : Rect) : Rbox :=
  let right := r.left + r.width
  let bottom := r.top + r.height
  ⟨r.top, right, bottom, r.left⟩

/-- Rect.createFromBox. -/
def Rect.createFromBox (box : Rbox) : Rect :=
  ⟨box.left, box.top, box.right - box.left, box.bottom - box.top⟩

/-- Size from src/size.js. -/
structure Size where
  width : ℚ
  height : ℚ
deriving DecidableEq, Repr

/-- Size.prototype.aspectRatio: width / height. -/
def Size.aspectRatio (s : Size) : ℚ :=
  s.width / s.height

/-- Size.prototype.scale with a single factor (opt_sy omitted, so sy = sx). -/
def Size.scale (s : Size) (sx : ℚ) : Size :=
  ⟨s.width * sx, s.height * sx⟩

/-- Size.prototype.scaleToFit. -/
def Size.scaleToFit (s target : Size) : Size :=
  let f := if s.aspectRatio > target.aspectRatio then
      target.width / s.width
    else
      target.height / s.height
  s.scale f

/-- Sum of the areas of a list of rectangles. -/
def areaSum (l : List Rect) : ℚ :=
  (l.map Rect.area).sum

/-- Two rectangles do not overlap when the library's own intersection of them
is null or degenerate (zero width or zero height). -/
def NoOverlap (r s : Rect) : Prop :=
  ∀ i, Rect.intersection r s = some i → i.width = 0 ∨ i.height = 0

/-- The four candidate bands in the order the spec states (top, bottom, left,
right), the left and right bands using the already-shrunk vertical extent
running from the max of the tops down to the min of the bottoms.  This is the
closed form of the threaded top/height locals of Rect.difference. -/
def differenceBands (a b : Rect) : List Rect :=
  (if b.top > a.top then [⟨a.left, a.top, a.width, b.top - a.top⟩] else []) ++
  (if b.top + b.height < a.top + a.height then
     [⟨a.left, b.top + b.height, a.width, (a.top + a.height) - (b.top + b.height)⟩] else []) ++
  (if b.left > a.left then
     [⟨a.left, max a.top b.top, b.left - a.left,
       min (a.top + a.height) (b.top + b.height) - max a.top b.top⟩] else []) ++
  (if b.left + b.width < a.left + a.width then
     [⟨b.left + b.width, max a.top b.top, (a.left + a.width) - (b.left + b.width),
       min (a.top + a.height) (b.top + b.height) - max a.top b.top⟩] else [])

/-- Box from the unnamed source file, at the real-number instantiation used
for the metric operations (Box.distance takes a square root).  Rbox above is
the same source class at the rational instantiation used by the Rect
conversions. -/
structure Box where
  top : ℝ
  right : ℝ
  bottom : ℝ
  left : ℝ

/-- Coordinate from src/coordinate.js (real-valued x and y). -/
structure Coordinate where
  x : ℝ
  y : ℝ

/-- Box.relativePositionX. -/
noncomputable def Box.relativePositionX (box : Box) (coord : Coordinate) : ℝ :=
  if coord.x < box.left then coord.x - box.left
  else if coord.x > box.right then coord.x - box.right
  else 0

/-- Box.relativePositionY. -/
noncomputable def Box.relativePositionY (box : Box) (coord : Coordinate) : ℝ :=
  if coord.y < box.top then coord.y - box.top
  else if coord.y > box.bottom then coord.y - box.bottom
  else 0

/-- Box.distance: sqrt(x*x + y*y) of the two relative positions. -/
noncomputable def Box.distance (box : Box) (coord : Coordinate) : ℝ :=
  Real.sqrt (Box.relativePositionX box coord * Box.relativePositionX box coord +
             Box.relativePositionY box coord * Box.relativePositionY box coord)

/-- Box.contains on a Coordinate (the coordinate branch of the source; the
null guard has no counterpart in the value-level model).  The source returns
a boolean; over the reals it is modelled as the corresponding proposition. -/
def Box.contains (box : Box) (coord : Coordinate) : Prop :=
  coord.x ≥ box.left ∧ coord.x ≤ box.right ∧ coord.y ≥ box.top ∧ coord.y ≤ box.bottom

/-- JavaScript numbers for the claims about non-finite results: a real value,
the two infinities, or NaN.  Overflow of finite arithmetic is not modelled
(finite operands give the exact real result); the special-value propagation
follows IEEE 754 as JavaScript exposes it, with 1/0 = +Infinity (the zero
produced by the library is positive zero) and 0 * Infinity = NaN. -/
inductive JsNum where
  | num : ℝ → JsNum
  | posInf : JsNum
  | negInf : JsNum
  | nan : JsNum

/-- Whether a JsNum is a finite number. -/
def JsNum.isFinite : JsNum → Bool
  | JsNum.num _ => true
  | _ => false

/-- JavaScript multiplication on JsNum. -/
noncomputable def JsNum.mul : JsNum → JsNum → JsNum
  | JsNum.num a, JsNum.num b => JsNum.num (a * b)
  | JsNum.num a, JsNum.posInf =>
      if 0 < a then JsNum.posInf else if a < 0 then JsNum.negInf else JsNum.nan
  | JsNum.num a, JsNum.negInf =>
      if 0 < a then JsNum.negInf else if a < 0 then JsNum.posInf else JsNum.nan
  | JsNum.posInf, JsNum.num b =>
      if 0 < b then JsNum.posInf else if b < 0 then JsNum.negInf else JsNum.nan
  | JsNum.negInf, JsNum.num b =>
      if 0 < b then JsNum.negInf else if b < 0 then JsNum.posInf else JsNum.nan
  | JsNum.posInf, JsNum.posInf => JsNum.posInf
  | JsNum.posInf, JsNum.negInf => JsNum.negInf
  | JsNum.negInf, JsNum.posInf => JsNum.negInf
  | JsNum.negInf, JsNum.negInf => JsNum.posInf
  | _, _ => JsNum.nan

/-- JavaScript addition on JsNum. -/
noncomputable def JsNum.add : JsNum → JsNum → JsNum
  | JsNum.num a, JsNum.num b => JsNum.num (a + b)
  | JsNum.num _, JsNum.posInf => JsNum.posInf
  | JsNum.num _, JsNum.negInf => JsNum.negInf
  | JsNum.posInf, JsNum.num _ => JsNum.posInf
  | JsNum.negInf, JsNum.num _ => JsNum.negInf
  | JsNum.posInf, JsNum.posInf => JsNum.posInf
  | JsNum.negInf, JsNum.negInf => JsNum.negInf
  | _, _ => JsNum.nan

/-- JavaScript division on JsNum (division of a positive finite number by
positive zero gives +Infinity). -/
noncomputable def JsNum.div : JsNum → JsNum → JsNum
  | JsNum.num a, JsNum.num b =>
      if b = 0 then
        if 0 < a then JsNum.posInf else if a < 0 then JsNum.negInf else JsNum.nan
      else JsNum.num (a / b)
  | JsNum.num _, JsNum.posInf => JsNum.num 0
  | JsNum.num _, JsNum.negInf => JsNum.num 0
  | JsNum.posInf, JsNum.num b => if b < 0 then JsNum.negInf else JsNum.posInf
  | JsNum.negInf, JsNum.num b => if b < 0 then JsNum.posInf else JsNum.negInf
  | _, _ => JsNum.nan

/-- JavaScript Math.sqrt on JsNum (NaN for negative arguments). -/
noncomputable def JsNum.sqrt : JsNum → JsNum
  | JsNum.num a => if a < 0 then JsNum.nan else JsNum.num (Real.sqrt a)
  | JsNum.posInf => JsNum.posInf
  | _ => JsNum.nan

/-- Coordinate from src/coordinate.js at the JsNum instantiation, used for
the claims about normalize and its behaviour on the zero vector. -/
structure CoordinateJs where
  x : JsNum
  y : JsNum

/-- Coordinate.prototype.magnitude: sqrt(x*x + y*y). -/
noncomputable def CoordinateJs.magnitude (c : CoordinateJs) : JsNum :=
  JsNum.sqrt (JsNum.add (JsNum.mul c.x c.x) (JsNum.mul c.y c.y))

/-- Coordinate.prototype.scale with one factor (opt_sy omitted, so sy = sx):
x and y are each multiplied by the factor. -/
noncomputable def CoordinateJs.scale (c : CoordinateJs) (sx : JsNum) : CoordinateJs :=
  ⟨JsNum.mul c.x sx, JsNum.mul c.y sx⟩

/-- Coordinate.prototype.normalize: scale by 1/magnitude, no guard. -/
noncomputable def CoordinateJs.normalize (c : CoordinateJs) : CoordinateJs :=
  c.scale (JsNum.div (JsNum.num 1) c.magnitude)

/-- A heap of Rect objects: cell indices are object identities. -/
def HeapUpdate (H : ℕ → Rect) (i : ℕ) (r : Rect) : ℕ → Rect :=
  fun j => if j = i then r else H j

/-- Allocate each rectangle value of a list at consecutive fresh cells,
returning the identities in order, the final heap, and the next fresh cell. -/
def allocList (H : ℕ → Rect) (next : ℕ) : List Rect → List ℕ × (ℕ → Rect) × ℕ
  | [] => ([], H, next)
  | r :: rs =>
    let rest := allocList (HeapUpdate H next r) (next + 1) rs
    (next :: rest.1, rest.2)

/-- Heap-instrumented Rect.difference.  It reads the operand objects at
identities aid and bid, allocates the temporary rectangle produced by the
static Rect.intersection call when that is non-null, and then allocates every
rectangle the function pushes onto its result (each new Rect and the clone),
in statement order; the source writes no field of any existing object.
Returns the identities of the result array's elements, the final heap, and
the next fresh identity. -/
def Rect.differenceH (H : ℕ → Rect) (next aid bid : ℕ) : List ℕ × (ℕ → Rect) × ℕ :=
  match Rect.intersection (H aid) (H bid) with
  | none => allocList H next (Rect.difference (H aid) (H bid))
  | some i => allocList (HeapUpdate H next i) (next + 1) (Rect.difference (H aid) (H bid))

theorem intersection_eq_some (a b i : Rect) (h : Rect.intersection a b = some i) :
    max a.left b.left ≤ min (a.left + a.width) (b.left + b.width) ∧
    max a.top b.top ≤ min (a.top + a.height) (b.top + b.height) ∧
    i = ⟨max a.left b.left, max a.top b.top,
         min (a.left + a.width) (b.left + b.width) - max a.left b.left,
         min (a.top + a.height) (b.top + b.height) - max a.top b.top⟩ := by
  unfold Rect.intersection at h
  by_cases hx : max a.left b.left ≤ min (a.left + a.width) (b.left + b.width)
  · by_cases hy : max a.top b.top ≤ min (a.top + a.height) (b.top + b.height)
    · simp only [hx, hy, if_pos, Option.some.injEq] at h
      exact ⟨hx, hy, h.symm⟩
    · simp only [hx, hy, if_pos, if_neg, not_false_iff] at h
      cases h
  · simp only [hx, if_neg, not_false_iff] at h
    cases h

theorem intersection_eq_none (a b : Rect) :
    Rect.intersection a b = none ↔
    ¬(max a.left b.left ≤ min (a.left + a.width) (b.left + b.width) ∧
      max a.top b.top ≤ min (a.top + a.height) (b.top + b.height)) := by
  unfold Rect.intersection
  by_cases hx : max a.left b.left ≤ min (a.left + a.width) (b.left + b.width)
  · by_cases hy : max a.top b.top ≤ min (a.top + a.height) (b.top + b.height)
    · simp [hx, hy]
    · simp [hx, hy]
  · simp [hx]

theorem intersects_iff (a b : Rect) :
    Rect.intersects a b = true ↔
    (a.left ≤ b.left + b.width ∧ b.left ≤ a.left + a.width ∧
     a.top ≤ b.top + b.height ∧ b.top ≤ a.top + a.height) := by
  simp [Rect.intersects, and_assoc]

theorem intersects_of_some (a b i : Rect) (h : Rect.intersection a b = some i) :
    Rect.intersects a b = true := by
  obtain ⟨hx, hy, -⟩ := intersection_eq_some a b i h
  rw [intersects_iff]
  constructor
  · calc a.left ≤ max a.left b.left := le_max_left _ _
      _ ≤ min (a.left + a.width) (b.left + b.width) := hx
      _ ≤ b.left + b.width := min_le_right _ _
  constructor
  · calc b.left ≤ max a.left b.left := le_max_right _ _
      _ ≤ min (a.left + a.width) (b.left + b.width) := hx
      _ ≤ a.left + a.width := min_le_left _ _
  constructor
  · calc a.top ≤ max a.top b.top := le_max_left _ _
      _ ≤ min (a.top + a.height) (b.top + b.height) := hy
      _ ≤ b.top + b.height := min_le_right _ _
  · calc b.top ≤ max a.top b.top := le_max_right _ _
      _ ≤ min (a.top + a.height) (b.top + b.height) := hy
      _ ≤ a.top + a.height := min_le_left _ _

theorem none_of_not_intersects (a b : Rect) (h : Rect.intersects a b = false) :
    Rect.intersection a b = none := by
  cases hi : Rect.intersection a b with
  | none => rfl
  | some i => rw [intersects_of_some a b i hi] at h; cases h

theorem clone_eq (r : Rect) : r.clone = r := by
  cases r; rfl

/-- C2 counterexample: with a negative width permitted, `Rect.intersects` can
be true while the static `Rect.intersection` is null, so the iff of the claim
fails without a sign precondition. -/
theorem c2_counterexample :
    Rect.intersects ⟨-5, 0, 10, 1⟩ ⟨0, 0, -1, 1⟩ = true ∧
    Rect.intersection ⟨-5, 0, 10, 1⟩ ⟨0, 0, -1, 1⟩ = none := by
  constructor
  · rw [intersects_iff]; norm_num
  · rw [intersection_eq_none]
    simp only [not_and, not_le]
    intro h
    norm_num at h

/-- C2 (amended): for rectangles whose widths and heights are non-negative,
the static `Rect.intersection(a,b)` is null iff `Rect.intersects(a,b)` is
false. -/
theorem c2_intersection_none_iff (a b : Rect)
    (haw : 0 ≤ a.width) (hah : 0 ≤ a.height)
    (hbw : 0 ≤ b.width) (hbh : 0 ≤ b.height) :
    Rect.intersection a b = none ↔ Rect.intersects a b = false := by
  constructor
  · intro h
    cases hb : Rect.intersects a b with
    | false => rfl
    | true =>
      rw [intersection_eq_none] at h
      rw [intersects_iff] at hb
      obtain ⟨h1, h2, h3, h4⟩ := hb
      exact absurd ⟨max_le (le_min (by linarith) h1) (le_min h2 (by linarith)),
                    max_le (le_min (by linarith) h3) (le_min h4 (by linarith))⟩ h
  · exact none_of_not_intersects a b

theorem c2_intersection_none_iff_witness :
    Rect.intersection ⟨0, 0, 1, 1⟩ ⟨3, 3, 1, 1⟩ = none ↔
    Rect.intersects ⟨0, 0, 1, 1⟩ ⟨3, 3, 1, 1⟩ = false :=
  c2_intersection_none_iff ⟨0, 0, 1, 1⟩ ⟨3, 3, 1, 1⟩
    (by norm_num) (by norm_num) (by norm_num) (by norm_num)

/-- C3: the mutating instance method computes x0 as the max of the lefts, x1
as the min of the rights, and analogously y0, y1; exactly when x0 ≤ x1 and
y0 ≤ y1 (edge-inclusive) it overwrites self with (x0, y0, x1-x0, y1-y0) and
returns true, otherwise it returns false with self unmodified. -/
theorem c3_intersectionInst_spec (self rect : Rect) :
    self.intersectionInst rect =
      if max self.left rect.left ≤ min (self.left + self.width) (rect.left + rect.width) ∧
         max self.top rect.top ≤ min (self.top + self.height) (rect.top + rect.height) then
        (true, ⟨max self.left rect.left, max self.top rect.top,
                min (self.left + self.width) (rect.left + rect.width) - max self.left rect.left,
                min (self.top + self.height) (rect.top + rect.height) - max self.top rect.top⟩)
      else
        (false, self) := by
  unfold Rect.intersectionInst
  by_cases hx : max self.left rect.left ≤ min (self.left + self.width) (rect.left + rect.width)
  · by_cases hy : max self.top rect.top ≤ min (self.top + self.height) (rect.top + rect.height)
    · simp [hx, hy]
    · simp [hx, hy]
  · simp [hx]

/-- C4: the duplicated instance and static intersection logic agree.  The
instance call returns true exactly when the static form returns a rectangle,
and the final state of self is that rectangle (or self unchanged when the
static form is null).  The static form is a pure function of its arguments,
mutating neither. -/
theorem c4_instance_static_agree (a b : Rect) :
    a.intersectionInst b = ((Rect.intersection a b).isSome, (Rect.intersection a b).getD a) := by
  unfold Rect.intersectionInst Rect.intersection
  by_cases hx : max a.left b.left ≤ min (a.left + a.width) (b.left + b.width)
  · by_cases hy : max a.top b.top ≤ min (a.top + a.height) (b.top + b.height)
    · simp [hx, hy]
    · simp [hx, hy]
  · simp [hx]

/-- C5: whenever the static intersection is null or degenerate (zero width or
zero height) — in particular whenever a and b do not intersect at all —
`Rect.difference(a,b)` returns the one-element array holding a clone of a. -/
theorem c5_difference_degenerate (a b : Rect)
    (h : Rect.intersects a b = false ∨ Rect.intersection a b = none ∨
         ∃ i, Rect.intersection a b = some i ∧ (i.width = 0 ∨ i.height = 0)) :
    Rect.difference a b = [a.clone] ∧ a.clone = a := by
  refine ⟨?_, clone_eq a⟩
  rcases h with h | h | ⟨i, hi, hdeg⟩
  · unfold Rect.difference
    rw [none_of_not_intersects a b h]
  · unfold Rect.difference
    rw [h]
  · unfold Rect.difference
    rw [hi]
    simp only [if_pos (Or.symm hdeg)]

theorem c5_difference_degenerate_witness :
    Rect.difference ⟨0, 0, 1, 1⟩ ⟨5, 5, 1, 1⟩ = [Rect.clone ⟨0, 0, 1, 1⟩] ∧
    Rect.clone ⟨0, 0, 1, 1⟩ = ⟨0, 0, 1, 1⟩ :=
  c5_difference_degenerate ⟨0, 0, 1, 1⟩ ⟨5, 5, 1, 1⟩
    (Or.inl (by rw [← Bool.not_eq_true, intersects_iff]; norm_num))

/-- C6: the round trip through Box reproduces a rectangle exactly:
`Rect.createFromBox(r.toBox())` has the same left, top, width and height as r
(r's width and height non-negative, per the claim). -/
theorem c6_box_round_trip (r : Rect) (hw : 0 ≤ r.width) (hh : 0 ≤ r.height) :
    Rect.createFromBox r.toBox = r := by
  cases r
  simp only [Rect.toBox, Rect.createFromBox, Rect.mk.injEq, true_and]
  constructor <;> ring

theorem c6_box_round_trip_witness :
    Rect.createFromBox (Rect.toBox ⟨1, 2, 3, 4⟩) = ⟨1, 2, 3, 4⟩ :=
  c6_box_round_trip ⟨1, 2, 3, 4⟩ (by norm_num) (by norm_num)

/-- C7: scaleToFit scales both dimensions uniformly by the single factor
target.width/s.width when s's aspect ratio exceeds target's, and by
target.height/s.height otherwise; uniform scaling preserves the aspect ratio,
and Size(4,3).scaleToFit(Size(8,3)) is unchanged at Size(4,3). -/
theorem c7_scaleToFit_spec (s target : Size)
    (h1 : 0 < s.width) (h2 : 0 < s.height)
    (h3 : 0 < target.width) (h4 : 0 < target.height) :
    (s.scaleToFit target =
      if target.aspectRatio < s.aspectRatio then
        ⟨s.width * (target.width / s.width), s.height * (target.width / s.width)⟩
      else
        ⟨s.width * (target.height / s.height), s.height * (target.height / s.height)⟩) ∧
    (s.scaleToFit target).aspectRatio = s.aspectRatio ∧
    Size.scaleToFit ⟨4, 3⟩ ⟨8, 3⟩ = ⟨4, 3⟩ := by
  have hfact : (0 : ℚ) <
      (if s.aspectRatio > target.aspectRatio then target.width / s.width
       else target.height / s.height) := by
    by_cases hc : s.aspectRatio > target.aspectRatio
    · rw [if_pos hc]; exact div_pos h3 h1
    · rw [if_neg hc]; exact div_pos h4 h2
  refine ⟨?_, ?_, ?_⟩
  · unfold Size.scaleToFit Size.scale
    by_cases hc : s.aspectRatio > target.aspectRatio
    · simp only [hc, gt_iff_lt, if_pos]
    · simp only [gt_iff_lt] at hc
      simp only [gt_iff_lt, if_neg hc]
  · unfold Size.scaleToFit Size.scale Size.aspectRatio
    exact mul_div_mul_right s.width s.height (ne_of_gt hfact)
  · unfold Size.scaleToFit Size.scale Size.aspectRatio
    norm_num

theorem c7_scaleToFit_spec_witness :
    (Size.scaleToFit ⟨4, 3⟩ ⟨8, 3⟩ =
      if Size.aspectRatio ⟨8, 3⟩ < Size.aspectRatio ⟨4, 3⟩ then
        ⟨4 * (8 / 4), 3 * (8 / 4)⟩
      else
        ⟨4 * (3 / 3), 3 * (3 / 3)⟩) ∧
    (Size.scaleToFit ⟨4, 3⟩ ⟨8, 3⟩).aspectRatio = Size.aspectRatio ⟨4, 3⟩ ∧
    Size.scaleToFit ⟨4, 3⟩ ⟨8, 3⟩ = ⟨4, 3⟩ :=
  c7_scaleToFit_spec ⟨4, 3⟩ ⟨8, 3⟩ (by norm_num) (by norm_num) (by norm_num) (by norm_num)

theorem difference_explicit (a b i : Rect) (hi : Rect.intersection a b = some i)
    (hw : i.width ≠ 0) (hh : i.height ≠ 0) :
    Rect.difference a b = differenceBands a b := by
  have hcond : ¬(i.height = 0 ∨ i.width = 0) := by
    intro hc
    rcases hc with hc | hc
    · exact hh hc
    · exact hw hc
  have htop : (if b.top > a.top then b.top else a.top) = max a.top b.top := by
    by_cases h1 : b.top > a.top
    · rw [if_pos h1, max_eq_right (le_of_lt h1)]
    · rw [if_neg h1, max_eq_left (not_lt.mp h1)]
  have hh0 : (if b.top > a.top then a.height - (b.top - a.top) else a.height) =
      (a.top + a.height) - max a.top b.top := by
    by_cases h1 : b.top > a.top
    · rw [if_pos h1, max_eq_right (le_of_lt h1)]; ring
    · rw [if_neg h1, max_eq_left (not_lt.mp h1)]; ring
  have hht : (if b.top + b.height < a.top + a.height then
        (b.top + b.height) - max a.top b.top
      else (a.top + a.height) - max a.top b.top) =
      min (a.top + a.height) (b.top + b.height) - max a.top b.top := by
    by_cases h2 : b.top + b.height < a.top + a.height
    · rw [if_pos h2, min_eq_right (le_of_lt h2)]
    · rw [if_neg h2, min_eq_left (not_lt.mp h2)]
  unfold Rect.difference
  rw [hi]
  dsimp only
  rw [if_neg hcond]
  rw [htop, hh0, hht]
  rfl

theorem noOverlap_of_y (r s : Rect)
    (h : r.top + r.height ≤ s.top ∨ s.top + s.height ≤ r.top) : NoOverlap r s := by
  intro i hi
  obtain ⟨hx, hy, hieq⟩ := intersection_eq_some r s i hi
  right
  subst hieq
  dsimp only
  rcases h with h | h
  · have h1 : min (r.top + r.height) (s.top + s.height) ≤ max r.top s.top :=
      le_trans (min_le_left _ _) (le_trans h (le_max_right _ _))
    linarith
  · have h1 : min (r.top + r.height) (s.top + s.height) ≤ max r.top s.top :=
      le_trans (min_le_right _ _) (le_trans h (le_max_left _ _))
    linarith

theorem noOverlap_of_x (r s : Rect)
    (h : r.left + r.width ≤ s.left ∨ s.left + s.width ≤ r.left) : NoOverlap r s := by
  intro i hi
  obtain ⟨hx, hy, hieq⟩ := intersection_eq_some r s i hi
  left
  subst hieq
  dsimp only
  rcases h with h | h
  · have h1 : min (r.left + r.width) (s.left + s.width) ≤ max r.left s.left :=
      le_trans (min_le_left _ _) (le_trans h (le_max_right _ _))
    linarith
  · have h1 : min (r.left + r.width) (s.left + s.width) ≤ max r.left s.left :=
      le_trans (min_le_right _ _) (le_trans h (le_max_left _ _))
    linarith

theorem differenceBands_pairwise (a b i : Rect) (hi : Rect.intersection a b = some i) :
    List.Pairwise NoOverlap (differenceBands a b) := by
  obtain ⟨hx, hy, -⟩ := intersection_eq_some a b i hi
  have hmaxt : b.top ≤ max a.top b.top := le_max_right _ _
  have hmint : min (a.top + a.height) (b.top + b.height) ≤ b.top + b.height := min_le_right _ _
  have hbh : 0 ≤ b.height := by linarith
  have hbw : 0 ≤ b.width := by
    have h1 : b.left ≤ max a.left b.left := le_max_right _ _
    have h2 : min (a.left + a.width) (b.left + b.width) ≤ b.left + b.width := min_le_right _ _
    linarith
  unfold differenceBands
  by_cases h1 : b.top > a.top <;>
    by_cases h2 : b.top + b.height < a.top + a.height <;>
      by_cases h3 : b.left > a.left <;>
        by_cases h4 : b.left + b.width < a.left + a.width <;>
          simp only [h1, h2, h3, h4, if_true, if_false, List.append_nil, List.nil_append,
            List.cons_append, List.pairwise_cons, List.mem_cons, List.mem_singleton,
            List.not_mem_nil, List.Pairwise.nil, forall_eq_or_imp, forall_eq,
            and_true, true_and, IsEmpty.forall_iff, implies_true] <;>
          repeat' apply And.intro
  all_goals
    first
      | exact noOverlap_of_y _ _ (Or.inl (by dsimp only; linarith))
      | exact noOverlap_of_y _ _ (Or.inr (by dsimp only; linarith))
      | exact noOverlap_of_x _ _ (Or.inl (by dsimp only; linarith))

theorem differenceBands_area (a b i : Rect) (hi : Rect.intersection a b = some i) :
    areaSum (differenceBands a b) + i.area = a.area := by
  obtain ⟨hx, hy, hieq⟩ := intersection_eq_some a b i hi
  subst hieq
  unfold differenceBands areaSum Rect.area
  by_cases h1 : b.top > a.top <;>
    by_cases h2 : b.top + b.height < a.top + a.height <;>
      by_cases h3 : b.left > a.left <;>
        by_cases h4 : b.left + b.width < a.left + a.width <;>
          simp only [h1, h2, h3, h4, if_true, if_false, List.append_nil, List.nil_append,
            List.cons_append, List.map_cons, List.map_nil, List.sum_cons, List.sum_nil]
  all_goals
    first
      | rw [max_eq_right (le_of_lt h1)]
      | rw [max_eq_left (not_lt.mp h1)]
  all_goals
    first
      | rw [min_eq_right (le_of_lt h2)]
      | rw [min_eq_left (not_lt.mp h2)]
  all_goals
    first
      | rw [max_eq_right (le_of_lt h3)]
      | rw [max_eq_left (not_lt.mp h3)]
  all_goals
    first
      | rw [min_eq_right (le_of_lt h4)]
      | rw [min_eq_left (not_lt.mp h4)]
  all_goals ring

theorem intersection_isSome_of_intersects (a b : Rect)
    (hab : Rect.intersects a b = true)
    (haw : 0 ≤ a.width) (hah : 0 ≤ a.height)
    (hbw : 0 ≤ b.width) (hbh : 0 ≤ b.height) :
    ∃ i, Rect.intersection a b = some i := by
  cases hi : Rect.intersection a b with
  | some i => exact ⟨i, rfl⟩
  | none =>
    rw [intersection_eq_none] at hi
    rw [intersects_iff] at hab
    obtain ⟨h1, h2, h3, h4⟩ := hab
    exact absurd ⟨max_le (le_min (by linarith) h1) (le_min h2 (by linarith)),
                  max_le (le_min (by linarith) h3) (le_min h4 (by linarith))⟩ hi

/-- C1 counterexample: with only a's width and height non-negative, the
hypothesis of the claim is satisfiable while the static intersection is null
(b has a negative width), so no intersection rectangle exists whose area can
be added to the remainder areas as the claim requires. -/
theorem c1_counterexample :
    Rect.intersects ⟨-5, 0, 10, 1⟩ ⟨0, 0, -1, 1⟩ = true ∧
    (0 : ℚ) ≤ Rect.width ⟨-5, 0, 10, 1⟩ ∧ (0 : ℚ) ≤ Rect.height ⟨-5, 0, 10, 1⟩ ∧
    ¬∃ i, Rect.intersection ⟨-5, 0, 10, 1⟩ ⟨0, 0, -1, 1⟩ = some i ∧
        areaSum (Rect.difference ⟨-5, 0, 10, 1⟩ ⟨0, 0, -1, 1⟩) + i.area =
          Rect.area ⟨-5, 0, 10, 1⟩ := by
  refine ⟨by rw [intersects_iff]; norm_num, by norm_num, by norm_num, ?_⟩
  rintro ⟨i, hi, -⟩
  have hnone : Rect.intersection ⟨-5, 0, 10, 1⟩ ⟨0, 0, -1, 1⟩ = none := by
    rw [intersection_eq_none]
    simp only [not_and, not_le]
    intro h
    norm_num at h
  rw [hnone] at hi
  cases hi

/-- C1 (amended): for rectangles a, b that intersect and whose widths and
heights are all non-negative, the rectangles returned by Rect.difference(a,b)
are pairwise non-overlapping, their total area plus the area of the
intersection rectangle equals a's area, and (whenever the intersection is
non-degenerate) the result consists of the bands in the fixed order top,
bottom, left, right, with the left and right bands using the already-shrunk
vertical extent. -/
theorem c1_difference_decomposition (a b : Rect)
    (hab : Rect.intersects a b = true)
    (haw : 0 ≤ a.width) (hah : 0 ≤ a.height)
    (hbw : 0 ≤ b.width) (hbh : 0 ≤ b.height) :
    List.Pairwise NoOverlap (Rect.difference a b) ∧
    (∃ i, Rect.intersection a b = some i ∧
       areaSum (Rect.difference a b) + i.area = a.area) ∧
    (∀ i, Rect.intersection a b = some i → i.width ≠ 0 → i.height ≠ 0 →
       Rect.difference a b = differenceBands a b) := by
  obtain ⟨i, hi⟩ := intersection_isSome_of_intersects a b hab haw hah hbw hbh
  by_cases hdeg : i.width = 0 ∨ i.height = 0
  · have hd : Rect.difference a b = [a.clone] := by
      unfold Rect.difference
      rw [hi]
      dsimp only
      rw [if_pos (Or.symm hdeg)]
    have hzero : i.area = 0 := by
      rcases hdeg with h | h <;> (unfold Rect.area; rw [h]) <;> ring
    refine ⟨?_, ⟨i, hi, ?_⟩, ?_⟩
    · rw [hd]
      exact List.pairwise_singleton _ _
    · rw [hd, hzero, clone_eq]
      simp [areaSum]
    · intro j hj hjw hjh
      have hji : j = i := Option.some.inj (hj.symm.trans hi)
      subst hji
      rcases hdeg with h | h
      · exact (hjw h).elim
      · exact (hjh h).elim
  · push_neg at hdeg
    obtain ⟨hw, hh⟩ := hdeg
    have hd := difference_explicit a b i hi hw hh
    refine ⟨?_, ⟨i, hi, ?_⟩, fun j hj hjw hjh => hd⟩
    · rw [hd]
      exact differenceBands_pairwise a b i hi
    · rw [hd]
      exact differenceBands_area a b i hi

theorem c1_difference_decomposition_witness :
    List.Pairwise NoOverlap (Rect.difference ⟨0, 0, 10, 10⟩ ⟨5, 5, 10, 10⟩) ∧
    (∃ i, Rect.intersection ⟨0, 0, 10, 10⟩ ⟨5, 5, 10, 10⟩ = some i ∧
       areaSum (Rect.difference ⟨0, 0, 10, 10⟩ ⟨5, 5, 10, 10⟩) + i.area =
         Rect.area ⟨0, 0, 10, 10⟩) ∧
    (∀ i, Rect.intersection ⟨0, 0, 10, 10⟩ ⟨5, 5, 10, 10⟩ = some i →
       i.width ≠ 0 → i.height ≠ 0 →
       Rect.difference ⟨0, 0, 10, 10⟩ ⟨5, 5, 10, 10⟩ =
         differenceBands ⟨0, 0, 10, 10⟩ ⟨5, 5, 10, 10⟩) :=
  c1_difference_decomposition ⟨0, 0, 10, 10⟩ ⟨5, 5, 10, 10⟩
    (by rw [intersects_iff]; norm_num) (by norm_num) (by norm_num)
    (by norm_num) (by norm_num)

theorem relativePositionX_eq_zero (box : Box) (coord : Coordinate) :
    Box.relativePositionX box coord = 0 ↔ (box.left ≤ coord.x ∧ coord.x ≤ box.right) := by
  unfold Box.relativePositionX
  by_cases h1 : coord.x < box.left
  · rw [if_pos h1]
    constructor
    · intro h
      exact absurd (sub_eq_zero.mp h) (ne_of_lt h1)
    · rintro ⟨h2, -⟩
      exact absurd h1 (not_lt.mpr h2)
  · by_cases h2 : coord.x > box.right
    · rw [if_neg h1, if_pos h2]
      constructor
      · intro h
        exact absurd (sub_eq_zero.mp h) (ne_of_gt h2)
      · rintro ⟨-, h3⟩
        exact absurd h2 (not_lt.mpr h3)
    · rw [if_neg h1, if_neg h2]
      exact ⟨fun _ => ⟨not_lt.mp h1, not_lt.mp h2⟩, fun _ => rfl⟩

theorem relativePositionY_eq_zero (box : Box) (coord : Coordinate) :
    Box.relativePositionY box coord = 0 ↔ (box.top ≤ coord.y ∧ coord.y ≤ box.bottom) := by
  unfold Box.relativePositionY
  by_cases h1 : coord.y < box.top
  · rw [if_pos h1]
    constructor
    · intro h
      exact absurd (sub_eq_zero.mp h) (ne_of_lt h1)
    · rintro ⟨h2, -⟩
      exact absurd h1 (not_lt.mpr h2)
  · by_cases h2 : coord.y > box.bottom
    · rw [if_neg h1, if_pos h2]
      constructor
      · intro h
        exact absurd (sub_eq_zero.mp h) (ne_of_gt h2)
      · rintro ⟨-, h3⟩
        exact absurd h2 (not_lt.mpr h3)
    · rw [if_neg h1, if_neg h2]
      exact ⟨fun _ => ⟨not_lt.mp h1, not_lt.mp h2⟩, fun _ => rfl⟩

/-- C8: Box.distance is the Euclidean norm of the two relative-position
values, and it is zero exactly when the coordinate lies inside the box on
both axes, i.e. exactly when Box.contains holds. -/
theorem c8_distance_spec (box : Box) (coord : Coordinate) :
    Box.distance box coord =
      Real.sqrt (Box.relativePositionX box coord ^ 2 + Box.relativePositionY box coord ^ 2) ∧
    (Box.distance box coord = 0 ↔ Box.contains box coord) := by
  have hsq : Box.relativePositionX box coord * Box.relativePositionX box coord +
      Box.relativePositionY box coord * Box.relativePositionY box coord =
      Box.relativePositionX box coord ^ 2 + Box.relativePositionY box coord ^ 2 := by
    ring
  constructor
  · unfold Box.distance
    rw [hsq]
  · unfold Box.distance
    rw [hsq, Real.sqrt_eq_zero']
    constructor
    · intro h
      have hx2 : (0 : ℝ) ≤ Box.relativePositionX box coord ^ 2 := sq_nonneg _
      have hy2 : (0 : ℝ) ≤ Box.relativePositionY box coord ^ 2 := sq_nonneg _
      have hx : Box.relativePositionX box coord = 0 := by
        have : Box.relativePositionX box coord ^ 2 = 0 := by linarith
        exact pow_eq_zero_iff (two_ne_zero) |>.mp this
      have hy : Box.relativePositionY box coord = 0 := by
        have : Box.relativePositionY box coord ^ 2 = 0 := by linarith
        exact pow_eq_zero_iff (two_ne_zero) |>.mp this
      obtain ⟨ha, hb⟩ := (relativePositionX_eq_zero box coord).mp hx
      obtain ⟨hc, hd⟩ := (relativePositionY_eq_zero box coord).mp hy
      exact ⟨ha, hb, hc, hd⟩
    · rintro ⟨ha, hb, hc, hd⟩
      have hx : Box.relativePositionX box coord = 0 :=
        (relativePositionX_eq_zero box coord).mpr ⟨ha, hb⟩
      have hy : Box.relativePositionY box coord = 0 :=
        (relativePositionY_eq_zero box coord).mpr ⟨hc, hd⟩
      rw [hx, hy]
      norm_num

/-- C9: normalize equals scaling by 1/magnitude; for a finite coordinate of
nonzero magnitude the division is by a nonzero (positive) number and the
result is finite with magnitude 1, while the zero coordinate yields
non-finite (NaN) components through the unguarded division: 1/0 is +Infinity
and 0 * Infinity is NaN. -/
theorem c9_normalize_spec (x y : ℝ) :
    CoordinateJs.normalize ⟨JsNum.num x, JsNum.num y⟩ =
      CoordinateJs.scale ⟨JsNum.num x, JsNum.num y⟩
        (JsNum.div (JsNum.num 1) (CoordinateJs.magnitude ⟨JsNum.num x, JsNum.num y⟩)) ∧
    (CoordinateJs.magnitude ⟨JsNum.num x, JsNum.num y⟩ ≠ JsNum.num 0 →
      ∃ m : ℝ, 0 < m ∧
        CoordinateJs.magnitude ⟨JsNum.num x, JsNum.num y⟩ = JsNum.num m ∧
        CoordinateJs.normalize ⟨JsNum.num x, JsNum.num y⟩ =
          ⟨JsNum.num (x * (1 / m)), JsNum.num (y * (1 / m))⟩ ∧
        (CoordinateJs.normalize ⟨JsNum.num x, JsNum.num y⟩).x.isFinite = true ∧
        (CoordinateJs.normalize ⟨JsNum.num x, JsNum.num y⟩).y.isFinite = true ∧
        CoordinateJs.magnitude (CoordinateJs.normalize ⟨JsNum.num x, JsNum.num y⟩) =
          JsNum.num 1) ∧
    ((CoordinateJs.normalize ⟨JsNum.num 0, JsNum.num 0⟩).x = JsNum.nan ∧
     (CoordinateJs.normalize ⟨JsNum.num 0, JsNum.num 0⟩).y = JsNum.nan) := by
  have hS : (0 : ℝ) ≤ x * x + y * y :=
    add_nonneg (mul_self_nonneg x) (mul_self_nonneg y)
  have hmag : CoordinateJs.magnitude ⟨JsNum.num x, JsNum.num y⟩ =
      JsNum.num (Real.sqrt (x * x + y * y)) := by
    unfold CoordinateJs.magnitude
    simp only [JsNum.mul, JsNum.add, JsNum.sqrt]
    rw [if_neg (not_lt.mpr hS)]
  refine ⟨rfl, ?_, ?_⟩
  · intro hne
    have hsne : Real.sqrt (x * x + y * y) ≠ 0 := by
      intro h0
      apply hne
      rw [hmag, h0]
    have hSpos : 0 < x * x + y * y := by
      rcases eq_or_lt_of_le hS with h | h
      · exact absurd (by rw [← h, Real.sqrt_zero]) hsne
      · exact h
    have hspos : 0 < Real.sqrt (x * x + y * y) := Real.sqrt_pos.mpr hSpos
    refine ⟨Real.sqrt (x * x + y * y), hspos, hmag, ?_⟩
    have hdiv : JsNum.div (JsNum.num 1) (JsNum.num (Real.sqrt (x * x + y * y))) =
        JsNum.num (1 / Real.sqrt (x * x + y * y)) := by
      simp only [JsNum.div]
      rw [if_neg hsne]
    have hnorm : CoordinateJs.normalize ⟨JsNum.num x, JsNum.num y⟩ =
        ⟨JsNum.num (x * (1 / Real.sqrt (x * x + y * y))),
         JsNum.num (y * (1 / Real.sqrt (x * x + y * y)))⟩ := by
      unfold CoordinateJs.normalize CoordinateJs.scale
      rw [hmag, hdiv]
      simp only [JsNum.mul]
    refine ⟨hnorm, by rw [hnorm]; rfl, by rw [hnorm]; rfl, ?_⟩
    rw [hnorm]
    unfold CoordinateJs.magnitude
    simp only [JsNum.mul, JsNum.add, JsNum.sqrt]
    have hsq : Real.sqrt (x * x + y * y) * Real.sqrt (x * x + y * y) = x * x + y * y :=
      Real.mul_self_sqrt hS
    have harg : x * (1 / Real.sqrt (x * x + y * y)) * (x * (1 / Real.sqrt (x * x + y * y))) +
        y * (1 / Real.sqrt (x * x + y * y)) * (y * (1 / Real.sqrt (x * x + y * y))) = 1 := by
      have hstep : x * (1 / Real.sqrt (x * x + y * y)) * (x * (1 / Real.sqrt (x * x + y * y))) +
          y * (1 / Real.sqrt (x * x + y * y)) * (y * (1 / Real.sqrt (x * x + y * y))) =
          (x * x + y * y) / (Real.sqrt (x * x + y * y) * Real.sqrt (x * x + y * y)) := by
        field_simp
      rw [hstep, hsq]
      exact div_self (ne_of_gt hSpos)
    rw [harg]
    rw [if_neg (by norm_num)]
    rw [Real.sqrt_one]
  · have h0 : CoordinateJs.magnitude ⟨JsNum.num 0, JsNum.num 0⟩ = JsNum.num 0 := by
      unfold CoordinateJs.magnitude
      simp only [JsNum.mul, JsNum.add, JsNum.sqrt]
      norm_num
    have hne : CoordinateJs.normalize ⟨JsNum.num 0, JsNum.num 0⟩ =
        ⟨JsNum.nan, JsNum.nan⟩ := by
      unfold CoordinateJs.normalize CoordinateJs.scale
      rw [h0]
      simp only [JsNum.div]
      norm_num
      simp only [JsNum.mul]
      norm_num
    rw [hne]
    exact ⟨rfl, rfl⟩

theorem c9_normalize_spec_witness :
    (0 : ℝ) < 1 ∧
    CoordinateJs.magnitude ⟨JsNum.num 3, JsNum.num 4⟩ ≠ JsNum.num 0 ∧
    (∃ m : ℝ, 0 < m ∧
        CoordinateJs.magnitude ⟨JsNum.num 3, JsNum.num 4⟩ = JsNum.num m ∧
        CoordinateJs.normalize ⟨JsNum.num 3, JsNum.num 4⟩ =
          ⟨JsNum.num (3 * (1 / m)), JsNum.num (4 * (1 / m))⟩ ∧
        (CoordinateJs.normalize ⟨JsNum.num 3, JsNum.num 4⟩).x.isFinite = true ∧
        (CoordinateJs.normalize ⟨JsNum.num 3, JsNum.num 4⟩).y.isFinite = true ∧
        CoordinateJs.magnitude (CoordinateJs.normalize ⟨JsNum.num 3, JsNum.num 4⟩) =
          JsNum.num 1) := by
  have hmag : CoordinateJs.magnitude ⟨JsNum.num 3, JsNum.num 4⟩ = JsNum.num 5 := by
    unfold CoordinateJs.magnitude
    simp only [JsNum.mul, JsNum.add, JsNum.sqrt]
    rw [if_neg (by norm_num)]
    norm_num
    rw [show ((25 : ℝ)) = 5 ^ 2 by norm_num, Real.sqrt_sq (by norm_num)]
  have hne : CoordinateJs.magnitude ⟨JsNum.num 3, JsNum.num 4⟩ ≠ JsNum.num 0 := by
    rw [hmag]
    intro h
    injection h with h
    norm_num at h
  exact ⟨by norm_num, hne, (c9_normalize_spec 3 4).2.1 hne⟩

theorem allocList_preserves (rs : List Rect) (H : ℕ → Rect) (next j : ℕ) (hj : j < next) :
    (allocList H next rs).2.1 j = H j := by
  induction rs generalizing H next with
  | nil => rfl
  | cons r rs ih =>
    simp only [allocList]
    rw [ih (HeapUpdate H next r) (next + 1) (Nat.lt_succ_of_lt hj)]
    unfold HeapUpdate
    rw [if_neg (Nat.ne_of_lt hj)]

theorem allocList_ids_ge (rs : List Rect) (H : ℕ → Rect) (next : ℕ) :
    ∀ n ∈ (allocList H next rs).1, next ≤ n := by
  induction rs generalizing H next with
  | nil => intro n hn; cases hn
  | cons r rs ih =>
    intro n hn
    simp only [allocList, List.mem_cons] at hn
    rcases hn with hn | hn
    · exact hn ▸ le_refl next
    · exact le_trans (Nat.le_succ next) (ih (HeapUpdate H next r) (next + 1) n hn)

theorem allocList_values (rs : List Rect) (H : ℕ → Rect) (next : ℕ) :
    (allocList H next rs).1.map (allocList H next rs).2.1 = rs := by
  induction rs generalizing H next with
  | nil => rfl
  | cons r rs ih =>
    simp only [allocList, List.map_cons]
    rw [allocList_preserves rs (HeapUpdate H next r) (next + 1) next (Nat.lt_succ_self next)]
    rw [ih (HeapUpdate H next r) (next + 1)]
    unfold HeapUpdate
    rw [if_pos rfl]

/-- C10: Rect.difference (and the delegating instance form) leaves the fields
of both operand objects unchanged, every element of the returned array is a
newly allocated object (its identity is distinct from both operands), and the
values stored at those fresh identities are exactly the value-level
Rect.difference of the operands. -/
theorem c10_difference_frame (H : ℕ → Rect) (next aid bid : ℕ)
    (ha : aid < next) (hb : bid < next) :
    (Rect.differenceH H next aid bid).2.1 aid = H aid ∧
    (Rect.differenceH H next aid bid).2.1 bid = H bid ∧
    (∀ n ∈ (Rect.differenceH H next aid bid).1, n ≠ aid ∧ n ≠ bid) ∧
    (Rect.differenceH H next aid bid).1.map (Rect.differenceH H next aid bid).2.1 =
      Rect.difference (H aid) (H bid) ∧
    Rect.differenceInst (H aid) (H bid) = Rect.difference (H aid) (H bid) := by
  unfold Rect.differenceH
  cases hi : Rect.intersection (H aid) (H bid) with
  | none =>
    refine ⟨allocList_preserves _ _ _ _ ha, allocList_preserves _ _ _ _ hb, ?_,
      allocList_values _ _ _, rfl⟩
    intro n hn
    have h1 := allocList_ids_ge _ _ _ n hn
    exact ⟨by omega, by omega⟩
  | some i =>
    refine ⟨?_, ?_, ?_, allocList_values _ _ _, rfl⟩
    · rw [allocList_preserves _ _ _ _ (Nat.lt_succ_of_lt ha)]
      unfold HeapUpdate
      rw [if_neg (Nat.ne_of_lt ha)]
    · rw [allocList_preserves _ _ _ _ (Nat.lt_succ_of_lt hb)]
      unfold HeapUpdate
      rw [if_neg (Nat.ne_of_lt hb)]
    · intro n hn
      have h1 := allocList_ids_ge _ _ _ n hn
      exact ⟨by omega, by omega⟩

theorem c10_difference_frame_witness :
    ((Rect.differenceH
        (fun n => if n = 0 then ⟨0, 0, 4, 4⟩ else if n = 1 then ⟨1, 1, 2, 2⟩ else ⟨0, 0, 0, 0⟩)
        2 0 1).2.1 0 =
      (fun n => if n = 0 then (⟨0, 0, 4, 4⟩ : Rect) else if n = 1 then ⟨1, 1, 2, 2⟩ else ⟨0, 0, 0, 0⟩) 0) ∧
    ((Rect.differenceH
        (fun n => if n = 0 then ⟨0, 0, 4, 4⟩ else if n = 1 then ⟨1, 1, 2, 2⟩ else ⟨0, 0, 0, 0⟩)
        2 0 1).2.1 1 =
      (fun n => if n = 0 then (⟨0, 0, 4, 4⟩ : Rect) else if n = 1 then ⟨1, 1, 2, 2⟩ else ⟨0, 0, 0, 0⟩) 1) ∧
    (∀ n ∈ (Rect.differenceH
        (fun n => if n = 0 then (⟨0, 0, 4, 4⟩ : Rect) else if n = 1 then ⟨1, 1, 2, 2⟩ else ⟨0, 0, 0, 0⟩)
        2 0 1).1, n ≠ 0 ∧ n ≠ 1) ∧
    ((Rect.differenceH
        (fun n => if n = 0 then ⟨0, 0, 4, 4⟩ else if n = 1 then ⟨1, 1, 2, 2⟩ else ⟨0, 0, 0, 0⟩)
        2 0 1).1.map
      (Rect.differenceH
        (fun n => if n = 0 then ⟨0, 0, 4, 4⟩ else if n = 1 then ⟨1, 1, 2, 2⟩ else ⟨0, 0, 0, 0⟩)
        2 0 1).2.1 =
      Rect.difference (⟨0, 0, 4, 4⟩ : Rect) ⟨1, 1, 2, 2⟩) ∧
    Rect.differenceInst (⟨0, 0, 4, 4⟩ : Rect) ⟨1, 1, 2, 2⟩ =
      Rect.difference (⟨0, 0, 4, 4⟩ : Rect) ⟨1, 1, 2, 2⟩ :=
  c10_difference_frame
    (fun n => if n = 0 then ⟨0, 0, 4, 4⟩ else if n = 1 then ⟨1, 1, 2, 2⟩ else ⟨0, 0, 0, 0⟩)
    2 0 1 (by norm_num) (by norm_num)
